import Mathlib

/-!
Verification of the Financial Forecasting System's forecast orchestration and
ensemble engine.  The Python sources under `app/backend/models` and
`app/backend/services` are embedded shallowly: numeric values become `ℚ`
(rationals; the floating-point detail is not at issue in any claim except
where noted in doc comments), Python dictionaries keyed by model name become
association lists `List (String × ℚ)`, raised exceptions become
`Except PyError`, and calls into external libraries (scipy's minimizer,
numpy's square root, MongoDB's sort, pandas' sort) are abstracted as
function parameters constrained by their documented contracts.
-/

namespace FinForecast

/-- Exceptions raised by the Python code, recorded by builtin exception kind
(`ValueError`, `TypeError`, ...) and message. -/
structure PyError where
  kind : String
  msg : String
deriving DecidableEq, Repr

/-- Error raised throughout the model classes by the `if ... is None` guards:
`raise ValueError("Model must be trained first")`. -/
def notTrainedValueError : PyError :=
  ⟨"ValueError", "Model must be trained first"⟩

/- ### Shared metric computations

All five model classes and the ensemble compute the same three metrics:
`rmse = sqrt(mean((actual - predictions)**2))`,
`mae = mean(|actual - predictions|)`,
`mape = mean(|(actual - predictions) / actual|) * 100`.
`np.sqrt` leaves the rationals, so it is abstracted as a function parameter
`sqrtFn : ℚ → ℚ`; no claim depends on its value. -/

/-- Mean of `(p - a)^2` over the aligned pair, as in
`np.mean((predictions - actual) ** 2)`. -/
def mseOf (preds actual : List ℚ) : ℚ :=
  (List.zipWith (fun p a => (p - a) ^ 2) preds actual).sum / actual.length

/-- Mean absolute error `np.mean(np.abs(predictions - actual))`. -/
def maeOf (preds actual : List ℚ) : ℚ :=
  (List.zipWith (fun p a => |p - a|) preds actual).sum / actual.length

/-- Mean absolute percentage error
`np.mean(np.abs((actual - predictions) / actual)) * 100`.  The division is
unguarded in the source; a zero actual value makes numpy emit ±inf/nan
silently.  In `ℚ` the Lean convention `x / 0 = 0` applies; the embedding
keeps the decisive fact that a plain number is produced with no flag. -/
def mapeOf (preds actual : List ℚ) : ℚ :=
  (List.zipWith (fun p a => |(a - p) / a|) preds actual).sum / actual.length * 100

/-- Evaluation core shared by the `evaluate` methods (`ensemble_model.py`
lines 71-92, `moving_average_model.py` lines 51-72, and the copies in the
other model files): truncate prediction and actual to their common length,
then compute `{rmse, mae, mape}`.  The first metric call is sklearn's
`mean_squared_error`, which validates its input and raises
`ValueError("Found array with 0 sample(s) ...")` on empty arrays, so a
zero-length overlap fails before any metric is returned. -/
def evaluateMetrics (sqrtFn : ℚ → ℚ) (predictions actual : List ℚ) :
    Except PyError (ℚ × ℚ × ℚ) :=
  let n := min predictions.length actual.length
  let preds := predictions.take n
  let act := actual.take n
  if n = 0 then
    .error ⟨"ValueError", "Found array with 0 sample(s) while a minimum of 1 is required"⟩
  else
    .ok (sqrtFn (mseOf preds act), maeOf preds act, mapeOf preds act)

/- ### Moving average forecaster (`moving_average_model.py`) -/

/-- State of `MovingAverageForecaster`: the stored window size and, once
`train` has run, the training series (`trained_data`, the dropna'd target
column). -/
structure MAState where
  window_size : Nat
  trained_data : Option (List ℚ)

/-- Mean of a list, as `pandas.Series.mean`.  On an empty list the Lean
convention gives `0 / 0 = 0` (pandas gives NaN); no claim touches this case. -/
def listMean (l : List ℚ) : ℚ := l.sum / l.length

/-- Last `n` elements of a list, as `pandas.Series.tail(n)`. -/
def listTail (l : List ℚ) (n : Nat) : List ℚ := l.drop (l.length - n)

/-- MovingAverageForecaster.predict: raises
`ValueError("Model must be trained first")` when untrained, otherwise
returns `np.full(steps, mean(trained_data.tail(window_size)))`. -/
def maPredict (s : MAState) (steps : Nat) : Except PyError (List ℚ) :=
  match s.trained_data with
  | none => .error notTrainedValueError
  | some d => .ok (List.replicate steps (listMean (listTail d s.window_size)))

/- ### ARIMA forecaster (`arima_model.py`) -/

/-- ARIMAForecaster.predict: raises the untrained `ValueError` when
`fitted_model` is `None`, otherwise delegates to statsmodels'
`fitted_model.forecast(steps=steps)`, abstracted here as the fitted model
itself: a function from the step count to the forecast values. -/
def arimaPredict (fitted : Option (Nat → List ℚ)) (steps : Nat) :
    Except PyError (List ℚ) :=
  match fitted with
  | none => .error notTrainedValueError
  | some f => .ok (f steps)

/- ### VAR forecaster (`var_model.py`) -/

/-- Fitted VAR model.  The statsmodels result object exposes
`forecast(y, steps, exog_future=None)`: `y` (the trailing `k_ar`
observations) is a required positional argument. -/
structure VarFitted where
  forecastFn : List (List ℚ) → Nat → List (List ℚ)

/-- VARForecaster.predict (`var_model.py` lines 73-83): after the untrained
guard it executes `forecast = self.fitted_model.forecast(steps=steps)`.
That call supplies no value for the required positional argument `y` of
`VARResults.forecast(y, steps, ...)`, so Python raises `TypeError` before
any forecasting happens; the fitted model's `forecastFn` is never applied. -/
def varPredict (fitted : Option VarFitted) (_steps : Nat) :
    Except PyError (List ℚ) :=
  match fitted with
  | none => .error notTrainedValueError
  | some _ =>
      .error ⟨"TypeError", "forecast() missing 1 required positional argument: y"⟩

/- ### LSTM / GRU forecasters (`lstm_model.py`, `gru_model.py`)

The two classes differ only in the recurrent cell and in one extra data
length guard in the GRU version.  The trained network is abstracted as a
function from an input window (a list of scaled feature rows) to the next
scalar prediction; the fitted scaler's inverse transform of the price
component is a second abstract function. -/

/-- State shared by `LSTMForecaster` and `GRUForecaster`: sequence length,
the trained network (or `None`), and the inverse scaling applied to the
price column of the predictions. -/
structure RNNState where
  sequence_length : Nat
  model : Option (List (List ℚ) → ℚ)
  scalerInv : ℚ → ℚ

/-- Overwrite the price entry (column 0) of one feature row, as
`current_sequence[0, -1, 0] = next_pred[0, 0]`. -/
def setClose (row : List ℚ) (v : ℚ) : List ℚ :=
  match row with
  | [] => []
  | _ :: rest => v :: rest

/-- One step of the recursive rollout's window update:
`np.roll(current_sequence, -1, axis=1)` moves the oldest row to the end,
then its price entry is overwritten with the new prediction. -/
def advanceWindow (w : List (List ℚ)) (v : ℚ) : List (List ℚ) :=
  match w with
  | [] => []
  | r :: rest => rest ++ [setClose r v]

/-- Recursive single-step rollout of the prediction loop
`for _ in range(steps): ...` in `LSTMForecaster.predict`. -/
def rnnRollout (net : List (List ℚ) → ℚ) (window : List (List ℚ)) :
    Nat → List ℚ
  | 0 => []
  | n + 1 =>
      let p := net window
      p :: rnnRollout net (advanceWindow window p) n

/-- LSTMForecaster.predict (`lstm_model.py` lines 107-137): untrained guard,
then take the last `sequence_length` scaled rows, roll out `steps`
single-step predictions, and inverse-transform the price component. -/
def lstmPredict (s : RNNState) (scaled : List (List ℚ)) (steps : Nat) :
    Except PyError (List ℚ) :=
  match s.model with
  | none => .error notTrainedValueError
  | some net =>
      let window := scaled.drop (scaled.length - s.sequence_length)
      .ok ((rnnRollout net window steps).map s.scalerInv)

/-- GRUForecaster.predict: identical to the LSTM version except for an
explicit guard rejecting inputs shorter than the sequence length. -/
def gruPredict (s : RNNState) (scaled : List (List ℚ)) (steps : Nat) :
    Except PyError (List ℚ) :=
  match s.model with
  | none => .error notTrainedValueError
  | some net =>
      if scaled.length < s.sequence_length then
        .error ⟨"ValueError", "Insufficient data for sequence length"⟩
      else
        let window := scaled.drop (scaled.length - s.sequence_length)
        .ok ((rnnRollout net window steps).map s.scalerInv)

/- ### Ensemble combiner (`ensemble_model.py`)

The ensemble holds named member models and a weight dictionary.  A member
model's `predict` call on the data/horizon at hand either raises (any
exception: the ensemble skips the member) or yields a list of values, so a
member is embedded as its name paired with `Option (List ℚ)`. -/

/-- Python `dict.get(name, default)` over an association list. -/
def lookupD : List (String × ℚ) → String → ℚ → ℚ
  | [], _, d => d
  | p :: rest, k, d => if p.1 = k then p.2 else lookupD rest k d

/-- Python `dict[name] = value` over an association list: replace the entry
if the key is present, append otherwise. -/
def setKey : List (String × ℚ) → String → ℚ → List (String × ℚ)
  | [], k, v => [(k, v)]
  | p :: rest, k, v => if p.1 = k then (k, v) :: rest else p :: setKey rest k v

/-- Members whose `predict` call succeeded, in member order; mirrors the
`predictions` dictionary built by the first loop of
`EnsembleForecaster.predict` (failed members are skipped by the
`except Exception: continue`). -/
def successes (models : List (String × Option (List ℚ))) :
    List (String × List ℚ) :=
  models.filterMap (fun p => p.2.map (fun v => (p.1, v)))

/-- Branch in the combination loop: a prediction with at least `steps`
values is truncated by `pred[:steps]`; a shorter one is padded to length
`steps` by `np.pad(pred, (0, steps - len(pred)), mode='edge')`, repeating
its last value.  (On an empty prediction numpy's edge padding would raise;
the `getLastD 0` default is never exercised by the claims, which assume
nonempty member predictions.) -/
def fitLen (pred : List ℚ) (steps : Nat) : List ℚ :=
  if steps ≤ pred.length then pred.take steps
  else pred ++ List.replicate (steps - pred.length) (pred.getLastD 0)

/-- Elementwise sum of two vectors, as numpy `+=` on equal-length arrays. -/
def vecAdd (a b : List ℚ) : List ℚ := List.zipWith (· + ·) a b

/-- Scalar multiple of a vector, as numpy `weight * pred`. -/
def vecScale (c : ℚ) (v : List ℚ) : List ℚ := v.map (fun x => c * x)

/-- Accumulation loop of `EnsembleForecaster.predict`: starting from
`np.zeros(steps)`, add `weight * fitLen pred steps` for every successful
member, looking its weight up with `self.weights.get(name, 1.0)`. -/
def weightedSumVec (weights : List (String × ℚ))
    (succ : List (String × List ℚ)) (steps : Nat) : List ℚ :=
  succ.foldl
    (fun acc p => vecAdd acc (vecScale (lookupD weights p.1 1) (fitLen p.2 steps)))
    (List.replicate steps 0)

/-- Running total `total_weight` of the same loop: the sum of the weights of
exactly the members that contributed. -/
def contribWeight (weights : List (String × ℚ))
    (succ : List (String × List ℚ)) : ℚ :=
  succ.foldl (fun acc p => acc + lookupD weights p.1 1) 0

/-- EnsembleForecaster.predict (`ensemble_model.py` lines 28-69): raise on an
empty ensemble, collect member predictions skipping failures, raise if all
fail, accumulate the weighted sum and the contributing weight, and divide by
the latter when it is positive. -/
def ensemblePredict (models : List (String × Option (List ℚ)))
    (weights : List (String × ℚ)) (steps : Nat) :
    Except PyError (List ℚ) :=
  if models.isEmpty then
    .error ⟨"ValueError", "No models added to ensemble"⟩
  else
    let preds := successes models
    if preds.isEmpty then
      .error ⟨"ValueError", "No valid predictions from any model"⟩
    else
      let v := weightedSumVec weights preds steps
      let tw := contribWeight weights preds
      .ok (if 0 < tw then v.map (fun x => x / tw) else v)

/-- EnsembleForecaster.normalize_weights (`ensemble_model.py` lines 22-26):
divide every weight by the total when the total is positive, otherwise do
nothing. -/
def normalize_weights (weights : List (String × ℚ)) : List (String × ℚ) :=
  let total := (weights.map (fun p => p.2)).sum
  if 0 < total then weights.map (fun p => (p.1, p.2 / total)) else weights

/-- Normalization `weights = weights / np.sum(weights)` performed inside the
optimization objective. -/
def normalizeVec (w : List ℚ) : List ℚ := w.map (fun x => x / w.sum)

/-- Ensemble combination used inside the optimization objective: iterate the
member predictions in dictionary order paired positionally with the weight
vector, accumulating `weights[i] * fitLen pred n` onto `np.zeros(n)`. -/
def ensembleVec (ws : List ℚ) (preds : List (List ℚ)) (n : Nat) : List ℚ :=
  (List.zip ws preds).foldl
    (fun acc p => vecAdd acc (vecScale p.1 (fitLen p.2 n)))
    (List.replicate n 0)

/-- Mean squared error of the objective's ensemble combination against the
validation actuals, after normalizing the weight vector. -/
def mseObjective (preds : List (List ℚ)) (actual : List ℚ) (w : List ℚ) : ℚ :=
  let ep := ensembleVec (normalizeVec w) preds actual.length
  (List.zipWith (fun a p => (a - p) ^ 2) actual ep).sum / actual.length

/-- Objective function of `optimize_weights`:
`rmse = np.sqrt(np.mean((actual - ensemble_pred) ** 2))` with `np.sqrt`
abstracted as `sqrtFn`. -/
def rmseObjective (sqrtFn : ℚ → ℚ) (preds : List (List ℚ)) (actual : List ℚ)
    (w : List ℚ) : ℚ :=
  sqrtFn (mseObjective preds actual w)

/-- EnsembleForecaster.optimize_weights (`ensemble_model.py` lines 94-150):
raise on an empty ensemble, collect member predictions on the validation
data skipping failures, raise if all fail, run scipy's SLSQP minimizer
(abstracted as `argmin`, applied to the objective and the equal initial
weights `np.ones(n)/n`), renormalize the minimizer's result by its sum, and
write the renormalized entries back into the weight dictionary under the
contributing members' names.  Weights of members whose prediction failed are
not touched. -/
def optimize_weights (sqrtFn : ℚ → ℚ)
    (argmin : (List ℚ → ℚ) → List ℚ → List ℚ)
    (models : List (String × Option (List ℚ)))
    (actual : List ℚ) (weights : List (String × ℚ)) :
    Except PyError (List (String × ℚ)) :=
  if models.isEmpty then
    .error ⟨"ValueError", "No models added to ensemble"⟩
  else
    let preds := successes models
    if preds.isEmpty then
      .error ⟨"ValueError", "No valid predictions from any model"⟩
    else
      let n := preds.length
      let initial := List.replicate n ((1 : ℚ) / n)
      let result := argmin (rmseObjective sqrtFn (preds.map (fun p => p.2)) actual) initial
      let optimized := result.map (fun x => x / result.sum)
      .ok ((List.zip (preds.map (fun p => p.1)) optimized).foldl
        (fun m p => setKey m p.1 p.2) weights)

/- ### Retraining batch (`forecast_service.py`, `ForecastService.retrain_models`)

For each of the five model kinds the service trains, then calls
`self.save_model(symbol, model_name, model)`, then predicts 24 steps,
computes metrics against the last 24 close values, and inserts a
performance record; the whole sequence sits in a per-model `try` whose
`except` records a failed status with the error message.  Training,
prediction and the database insert are external effects embedded as the
outcomes they produce.  The save call, however, is not a fallible external
step: `ForecastService` defines no `save_model` method at all (its only
persistence method is `load_model`), so the attribute lookup itself raises
`AttributeError` deterministically and everything after it in the `try`
block is unreachable. -/

/-- Error raised by the `self.save_model(symbol, model_name, model)` call
at `forecast_service.py` line 335: the `ForecastService` class has no such
attribute. -/
def saveModelAttributeError : PyError :=
  ⟨"AttributeError", "ForecastService object has no attribute save_model"⟩

/-- Outcomes of the external steps of one model's retraining sequence.
The prediction and insert outcomes are carried for structural faithfulness
to the source, but they sit behind the save call, which always raises. -/
structure ModelRun where
  name : String
  trainResult : Except PyError Unit
  predictResult : Except PyError (List ℚ)
  insertResult : Except PyError Unit

/-- Per-model entry of the retrain report:
`{'status': 'success', 'metrics': ...}` or
`{'status': 'failed', 'error': str(e)}`.  The metrics are `None` when the
prediction length does not match the 24-value actual tail. -/
inductive RetrainStatus where
  | success (metrics : Option (ℚ × ℚ × ℚ))
  | failed (error : String)
deriving DecidableEq, Repr

/-- Body of the per-model `try` block in `retrain_models`
(`forecast_service.py` lines 329-371): any raising step short-circuits to
the `failed` record with `str(e)`.  After a successful training, the call
`self.save_model(...)` raises `AttributeError` because the method does not
exist, so the prediction, metrics (rmse/mae/mape with `np.sqrt` abstracted
as `sqrtFn`), insert and `success` branches below it are dead code: every
reachable outcome of this block is a `failed` record. -/
def runModel (sqrtFn : ℚ → ℚ) (closeTail : List ℚ) (r : ModelRun) :
    RetrainStatus :=
  match r.trainResult with
  | .error e => .failed e.msg
  | .ok _ =>
    match (Except.error saveModelAttributeError : Except PyError Unit) with
    | .error e => .failed e.msg
    | .ok _ =>
      match r.predictResult with
      | .error e => .failed e.msg
      | .ok preds =>
        let metrics : Option (ℚ × ℚ × ℚ) :=
          if preds.length = closeTail.length then
            some (sqrtFn (mseOf preds closeTail), maeOf preds closeTail,
              mapeOf preds closeTail)
          else none
        match r.insertResult with
        | .error e => .failed e.msg
        | .ok _ => .success metrics

/-- ForecastService.retrain_models (`forecast_service.py` lines 312-382),
after the data for the symbol loaded successfully: every model kind gets an
entry in the `retrained_models` report, failures isolated per model. -/
def retrain_models (sqrtFn : ℚ → ℚ) (closeTail : List ℚ)
    (runs : List ModelRun) : List (String × RetrainStatus) :=
  runs.map (fun r => (r.name, runModel sqrtFn closeTail r))

/- ### Model evaluator (`services/model_evaluator.py`,
`ModelEvaluator.calculate_model_rankings`)

The evaluator reads the performance records (MongoDB returns them sorted by
timestamp descending: `.sort('timestamp', -1)`), keeps the first record per
model name (`groupby('model_name').first()` on the descending frame), pulls
the requested metric with `metrics.get(metric, float('inf'))`, sorts
ascending by it (`sort_values(..., ascending=True)`), and reports the first
row as best and the last as worst.  The two external sorts are abstracted:
the database sort as a `Pairwise` hypothesis on the input list, the pandas
sort as a function parameter constrained to return an ordered permutation. -/

/-- One document of the `model_performance` collection, with its nested
metrics dictionary. -/
structure PerfRecord where
  symbol : String
  model_name : String
  timestamp : Nat
  metrics : List (String × ℚ)

/-- Metric extraction `metrics.get(metric, float('inf'))`; the infinite
default is the top element of `WithTop ℚ`. -/
def findMetric : List (String × ℚ) → String → WithTop ℚ
  | [], _ => ⊤
  | p :: rest, m => if p.1 = m then (p.2 : WithTop ℚ) else findMetric rest m

/-- Symbol scoping of `get_all_performance_data`: an unscoped query keeps
every record, a scoped one keeps the records of that symbol. -/
def scopeFilter (records : List PerfRecord) (scope : Option String) :
    List PerfRecord :=
  match scope with
  | none => records
  | some s => records.filter (fun r => r.symbol = s)

/-- First record per model name in list order, given the names already
seen; embeds `groupby('model_name').first()` applied to the
timestamp-descending frame (on such a frame the first row of a group is the
group's most recent record). -/
def groupFirstAux (seen : List String) : List PerfRecord → List PerfRecord
  | [] => []
  | r :: rest =>
      if r.model_name ∈ seen then groupFirstAux seen rest
      else r :: groupFirstAux (r.model_name :: seen) rest

/-- Latest-record selection of `calculate_model_rankings`. -/
def groupFirst (l : List PerfRecord) : List PerfRecord := groupFirstAux [] l

/-- Rankings block for one metric (`model_evaluator.py` lines 52-83):
`best` is the model name of the first row after the ascending sort, `worst`
that of the last row, `scores` the name-to-value map in sorted order.
`sortFn` stands for `pandas.sort_values` on the metric column. -/
def calculate_model_rankings (sortFn : List PerfRecord → List PerfRecord)
    (records : List PerfRecord) (scope : Option String) (metric : String) :
    Option (String × String × List (String × WithTop ℚ)) :=
  let latest := groupFirst (scopeFilter records scope)
  let sorted := sortFn latest
  match sorted.head?, sorted.getLast? with
  | some b, some w =>
      some (b.model_name, w.model_name,
        sorted.map (fun r => (r.model_name, findMetric r.metrics metric)))
  | _, _ => none

/- ### Scheduler manual trigger (`services/scheduler_service.py`,
`SchedulerService.trigger_manual_update`) -/

/-- Job bodies the scheduler can invoke. -/
inductive JobBody where
  | dataRefresh
  | forecastRefresh
  | sentimentUpdate
  | modelRetrain
deriving DecidableEq, Repr

/-- Category string that selects each job body in the manual trigger. -/
def categoryOf : JobBody → String
  | .dataRefresh => "data"
  | .forecastRefresh => "forecast"
  | .sentimentUpdate => "sentiment"
  | .modelRetrain => "models"

/-- SchedulerService.trigger_manual_update (`scheduler_service.py` lines
190-201): four independent guards `if update_type in ["all", c]:` each
synchronously invoke one job body; the returned list records the invoked
bodies in program order. -/
def trigger_manual_update (update_type : String) : List JobBody :=
  (if update_type = "all" ∨ update_type = "data" then [JobBody.dataRefresh] else []) ++
  (if update_type = "all" ∨ update_type = "forecast" then [JobBody.forecastRefresh] else []) ++
  (if update_type = "all" ∨ update_type = "sentiment" then [JobBody.sentimentUpdate] else []) ++
  (if update_type = "all" ∨ update_type = "models" then [JobBody.modelRetrain] else [])

/-- Job bodies matching a category, read off the spec's sentence that the
manual trigger "synchronously invokes the corresponding job body(ies)": a
body matches when the category is `all` or names it. -/
def specMatchingJobs (update_type : String) : List JobBody :=
  [JobBody.dataRefresh, JobBody.forecastRefresh, JobBody.sentimentUpdate,
    JobBody.modelRetrain].filter
    (fun j => update_type = "all" ∨ update_type = categoryOf j)

/- ### Helper lemmas -/

/-- Folding an accumulating addition equals the initial value plus the sum. -/
theorem foldl_add_eq_add_sum {α : Type} (f : α → ℚ) (l : List α) (a : ℚ) :
    l.foldl (fun acc x => acc + f x) a = a + (l.map f).sum := by
  induction l generalizing a with
  | nil => simp
  | cons x t ih => simp [ih, add_assoc]

/-- The running `total_weight` is the sum of the contributing weights. -/
theorem contribWeight_eq (weights : List (String × ℚ))
    (succ : List (String × List ℚ)) :
    contribWeight weights succ = (succ.map (fun p => lookupD weights p.1 1)).sum := by
  unfold contribWeight
  rw [foldl_add_eq_add_sum]
  simp

/-- Truncation or edge padding always yields exactly `steps` values. -/
theorem fitLen_length (pred : List ℚ) (steps : Nat) :
    (fitLen pred steps).length = steps := by
  unfold fitLen
  split
  · simpa using Nat.min_eq_left (by assumption)
  · simp only [List.length_append, List.length_replicate]
    omega

/-- Summing a scaled vector elementwise preserves the accumulator length. -/
theorem vecAdd_length_left (a b : List ℚ) (h : b.length = a.length) :
    (vecAdd a b).length = a.length := by
  simp [vecAdd, h]

/-- The weighted accumulation loop keeps the `np.zeros(steps)` length. -/
theorem foldl_vecAdd_length (weights : List (String × ℚ))
    (succ : List (String × List ℚ)) (steps : Nat) (init : List ℚ)
    (hinit : init.length = steps) :
    (succ.foldl
      (fun acc p => vecAdd acc (vecScale (lookupD weights p.1 1) (fitLen p.2 steps)))
      init).length = steps := by
  induction succ generalizing init with
  | nil => simpa using hinit
  | cons x t ih =>
      rw [List.foldl_cons]
      apply ih
      rw [vecAdd_length_left _ _ (by simp [vecScale, fitLen_length, hinit])]
      exact hinit

/-- Pointwise value of the weighted accumulation loop: each component of the
result is the initial component plus the weighted sum of the members'
fitted predictions at that position. -/
theorem foldl_vecAdd_getD (weights : List (String × ℚ))
    (succ : List (String × List ℚ)) (steps j : Nat) (hj : j < steps)
    (init : List ℚ) (hinit : init.length = steps) :
    (succ.foldl
      (fun acc p => vecAdd acc (vecScale (lookupD weights p.1 1) (fitLen p.2 steps)))
      init).getD j 0
    = init.getD j 0
      + (succ.map (fun p => lookupD weights p.1 1 * (fitLen p.2 steps).getD j 0)).sum := by
  induction succ generalizing init with
  | nil => simp
  | cons x t ih =>
      rw [List.foldl_cons, List.map_cons, List.sum_cons]
      have hlen : (vecAdd init (vecScale (lookupD weights x.1 1) (fitLen x.2 steps))).length
          = steps := by
        rw [vecAdd_length_left _ _ (by simp [vecScale, fitLen_length, hinit])]
        exact hinit
      rw [ih _ hlen]
      have hjinit : j < init.length := by rw [hinit]; exact hj
      have hjadd : j < (vecAdd init (vecScale (lookupD weights x.1 1) (fitLen x.2 steps))).length := by
        rw [hlen]; exact hj
      have hjfit' : j < (fitLen x.2 steps).length := by
        rw [fitLen_length]; exact hj
      rw [List.getD_eq_getElem _ _ hjadd, List.getD_eq_getElem _ _ hjinit,
        List.getD_eq_getElem _ _ hjfit']
      simp only [vecAdd, vecScale, List.getElem_zipWith, List.getElem_map]
      ring

/-- Dividing every element and summing equals summing then dividing. -/
theorem sum_map_div (l : List ℚ) (c : ℚ) :
    (l.map (fun x => x / c)).sum = l.sum / c := by
  induction l with
  | nil => simp
  | cons a t ih => simp [ih, add_div]

/-- Rescaling every entry of a weight map divides the sum of weights. -/
theorem sum_map_pair_div (weights : List (String × ℚ)) (c : ℚ) :
    ((weights.map (fun p => (p.1, p.2 / c))).map (fun p => p.2)).sum
      = (weights.map (fun p => p.2)).sum / c := by
  induction weights with
  | nil => simp
  | cons a t ih => simp only [List.map_cons, List.sum_cons, ih, add_div]

/-- The accumulated ensemble vector has exactly `steps` components. -/
theorem weightedSumVec_length (weights : List (String × ℚ))
    (succ : List (String × List ℚ)) (steps : Nat) :
    (weightedSumVec weights succ steps).length = steps :=
  foldl_vecAdd_length weights succ steps _ (List.length_replicate _ _)

/-- Componentwise, the accumulated ensemble vector is the weighted sum of
the members' fitted predictions. -/
theorem weightedSumVec_getD (weights : List (String × ℚ))
    (succ : List (String × List ℚ)) (steps j : Nat) (hj : j < steps) :
    (weightedSumVec weights succ steps).getD j 0 =
      (succ.map (fun p => lookupD weights p.1 1 * (fitLen p.2 steps).getD j 0)).sum := by
  unfold weightedSumVec
  rw [foldl_vecAdd_getD weights succ steps j hj _ (List.length_replicate _ _)]
  rw [List.getD_eq_getElem _ 0 (by simpa using hj), List.getElem_replicate, zero_add]

/- ### C1 (ensemble predict: weighted average over contributing members) -/

/-- C1: whenever at least one member's predict call succeeds and the
contributing members' weights have a positive total, the ensemble
prediction is the weighted sum of the successful members' horizon-length
predictions (shorter ones padded by repeating their last value, longer ones
truncated) divided by the sum of the weights of exactly the contributing
members; and appending a member whose predict call fails changes nothing. -/
theorem ensemble_predict_weighted_by_contributing
    (models : List (String × Option (List ℚ))) (weights : List (String × ℚ))
    (steps : Nat) (hs : successes models ≠ [])
    (hw : 0 < contribWeight weights (successes models)) :
    ensemblePredict models weights steps =
      .ok ((List.range steps).map (fun j =>
        ((successes models).map
          (fun p => lookupD weights p.1 1 * (fitLen p.2 steps).getD j 0)).sum
          / contribWeight weights (successes models)))
    ∧ ∀ name, ensemblePredict (models ++ [(name, none)]) weights steps
        = ensemblePredict models weights steps := by
  have hm : models ≠ [] := by
    intro h
    rw [h] at hs
    exact hs rfl
  have hmf : models.isEmpty = false := by
    simpa [List.isEmpty_iff] using hm
  have hsf : (successes models).isEmpty = false := by
    simpa [List.isEmpty_iff] using hs
  constructor
  · simp only [ensemblePredict, hmf, hsf, Bool.false_eq_true, if_false]
    rw [if_pos hw]
    apply congrArg Except.ok
    apply List.ext_getElem
    · rw [List.length_map, List.length_map, List.length_range, weightedSumVec_length]
    · intro n h1 h2
      have hn : n < steps := by
        rw [List.length_map, weightedSumVec_length] at h1
        exact h1
      rw [List.getElem_map, List.getElem_map, List.getElem_range]
      rw [← List.getD_eq_getElem _ 0 (by rw [weightedSumVec_length]; exact hn)]
      rw [weightedSumVec_getD _ _ _ _ hn]
  · intro name
    have hsucc : successes (models ++ [(name, none)]) = successes models := by
      simp [successes, List.filterMap_append]
    have hmf2 : (models ++ [(name, none)]).isEmpty = false := by
      simp [List.isEmpty_iff]
    simp only [ensemblePredict, hsucc, hmf2, hmf]

/-- C1 witnessed on the spec's scenario: members A and B with weights
0.5 each, predicting [10,10] and [20,20], blend to [15,15] for horizon 2. -/
theorem ensemble_predict_scenario_witness :
    ensemblePredict [("A", some [10, 10]), ("B", some [20, 20])]
      [("A", 1/2), ("B", 1/2)] 2 = .ok [15, 15] := by
  have h := (ensemble_predict_weighted_by_contributing
    [("A", some [10, 10]), ("B", some [20, 20])] [("A", (1:ℚ)/2), ("B", 1/2)] 2
    (by simp [successes])
    (by simp [successes, contribWeight, lookupD])).1
  rw [h]
  simp [successes, contribWeight, lookupD, fitLen, List.range_succ]
  norm_num

/- ### C3 (normalize_weights) -/

/-- C3: for every weight map of non-negative weights (the spec's
EnsembleWeights invariant) with at least one positive weight,
`normalize_weights` leaves the weights summing to exactly 1; and whenever
the current weights sum to 0 the call leaves every weight unchanged. -/
theorem normalize_weights_sum_one_or_noop (weights : List (String × ℚ)) :
    ((∀ p ∈ weights, 0 ≤ p.2) → (∃ p ∈ weights, 0 < p.2) →
      ((normalize_weights weights).map (fun p => p.2)).sum = 1)
    ∧ ((weights.map (fun p => p.2)).sum = 0 → normalize_weights weights = weights) := by
  constructor
  · rintro hnn ⟨p, hp, hppos⟩
    have htot : 0 < (weights.map (fun q => q.2)).sum := by
      have h1 : p.2 ≤ (weights.map (fun q => q.2)).sum := by
        apply List.single_le_sum
        · intro x hx
          simp only [List.mem_map] at hx
          obtain ⟨q, hq, rfl⟩ := hx
          exact hnn q hq
        · exact List.mem_map_of_mem _ hp
      linarith
    unfold normalize_weights
    rw [if_pos htot, sum_map_pair_div]
    exact div_self (ne_of_gt htot)
  · intro h0
    unfold normalize_weights
    rw [h0]
    simp

/-- C3 witnessed: weights {A:3, B:1} normalize to a sum of 1, and the
all-cancelling map {A:1, B:-1} (total 0) is left untouched. -/
theorem normalize_weights_witness :
    ((normalize_weights [("A", 3), ("B", 1)]).map (fun p => p.2)).sum = 1
    ∧ normalize_weights [("A", 1), ("B", -1)] = [("A", 1), ("B", -1)] :=
  ⟨(normalize_weights_sum_one_or_noop [("A", 3), ("B", 1)]).1
      (by norm_num) ⟨("A", 3), by norm_num, by norm_num⟩,
   (normalize_weights_sum_one_or_noop [("A", 1), ("B", -1)]).2 (by norm_num)⟩

/- ### C2 (code bug in the multivariate-autoregressive variant) -/

/-- C2: the claim states every trained variant's `predict(h)` returns exactly
`h` values, and the repo's own test `test_var_model` asserts
`len(model.predict(steps=10)) == 10`.  The code cannot satisfy this:
`VARForecaster.predict` executes `self.fitted_model.forecast(steps=steps)`,
omitting the required positional argument `y` of statsmodels'
`VARResults.forecast(y, steps, ...)`, so every call on a trained model
raises `TypeError` instead of returning a forecast. -/
theorem var_predict_missing_y_type_error (fitted : VarFitted) (steps : Nat) :
    varPredict (some fitted) steps =
      .error ⟨"TypeError", "forecast() missing 1 required positional argument: y"⟩ := rfl

/- ### C5 (mape silently emitted on zero actuals) -/

/-- C5 counterexample: with actual values `[0]` (a zero actual) and
prediction `[1]`, `evaluate` still returns a plain metrics tuple — nothing
flags mape as undefined.  In the Python source the division
`(actual - predictions) / actual` makes numpy emit inf/nan silently; in the
rational embedding the unguarded division shows up as the conventional
`x / 0 = 0`, and the decisive fact is that the result is `ok` with a
numeric mape rather than a flagged or failing one. -/
theorem evaluate_mape_zero_actual_counterexample :
    (0 : ℚ) ∈ [(0 : ℚ)] ∧ evaluateMetrics id [1] [0] = .ok (1, 1, 0) := by
  refine ⟨by simp, ?_⟩
  norm_num [evaluateMetrics, mseOf, maeOf, mapeOf]

/-- C5 amended: a zero-length prediction/actual overlap fails explicitly
(sklearn's `mean_squared_error` validates its input before any metric is
produced), but whenever the overlap is nonempty `evaluate` returns a plain
numeric metrics tuple — a zero actual value is never flagged, the mape
division is simply performed. -/
theorem evaluate_metrics_explicit_on_empty (sqrtFn : ℚ → ℚ)
    (predictions actual : List ℚ) :
    (min predictions.length actual.length = 0 →
      evaluateMetrics sqrtFn predictions actual =
        .error ⟨"ValueError", "Found array with 0 sample(s) while a minimum of 1 is required"⟩)
    ∧ (min predictions.length actual.length ≠ 0 →
      ∃ t, evaluateMetrics sqrtFn predictions actual = .ok t) := by
  constructor
  · intro h
    simp [evaluateMetrics, h]
  · intro h
    exact ⟨_, by simp only [evaluateMetrics]; rw [if_neg h]⟩

/-- C5 amended, witnessed at concrete inputs: an empty actual list fails
explicitly, while a nonempty overlap returns metrics. -/
theorem evaluate_metrics_explicit_on_empty_witness :
    evaluateMetrics id [1] [] =
      .error ⟨"ValueError", "Found array with 0 sample(s) while a minimum of 1 is required"⟩
    ∧ ∃ t, evaluateMetrics id [2] [1] = .ok t :=
  ⟨(evaluate_metrics_explicit_on_empty id [1] []).1 (by norm_num),
   (evaluate_metrics_explicit_on_empty id [2] [1]).2 (by norm_num)⟩

/- ### C6 (untrained predict raises an untyped ValueError) -/

/-- C6 counterexample: an untrained baseline-average forecaster's `predict`
raises the builtin `ValueError` with message "Model must be trained first",
whose kind is not the claimed typed `NotTrainedError`. -/
theorem predict_untrained_untyped_counterexample :
    maPredict ⟨20, none⟩ 24 = .error ⟨"ValueError", "Model must be trained first"⟩
    ∧ ("ValueError" : String) ≠ "NotTrainedError" :=
  ⟨rfl, by decide⟩

/-- C6 amended: for every variant and every horizon, calling `predict`
before `train` fails — it never returns a prediction — but the failure is
the generic builtin `ValueError("Model must be trained first")` rather than
a dedicated `NotTrainedError` type. -/
theorem predict_untrained_value_error (w steps : Nat) (inv : ℚ → ℚ)
    (scaled : List (List ℚ)) :
    maPredict ⟨w, none⟩ steps = .error notTrainedValueError
    ∧ arimaPredict none steps = .error notTrainedValueError
    ∧ varPredict none steps = .error notTrainedValueError
    ∧ lstmPredict ⟨60, none, inv⟩ scaled steps = .error notTrainedValueError
    ∧ gruPredict ⟨60, none, inv⟩ scaled steps = .error notTrainedValueError :=
  ⟨rfl, rfl, rfl, rfl, rfl⟩

/-- Writing a key into a weight dictionary makes lookups of that key return
the written value. -/
theorem lookupD_setKey_self (m : List (String × ℚ)) (k : String) (v d : ℚ) :
    lookupD (setKey m k v) k d = v := by
  induction m with
  | nil => simp [setKey, lookupD]
  | cons p rest ih =>
      by_cases hp : p.1 = k
      · simp only [setKey, if_pos hp, lookupD, eq_self_iff_true, if_true]
      · simp only [setKey, if_neg hp, lookupD, if_neg hp]
        exact ih

/-- Writing one key leaves lookups of every other key unchanged. -/
theorem lookupD_setKey_ne (m : List (String × ℚ)) (k k' : String) (v d : ℚ)
    (hk : k' ≠ k) : lookupD (setKey m k v) k' d = lookupD m k' d := by
  induction m with
  | nil =>
      simp only [setKey, lookupD]
      rw [if_neg (fun h => hk h.symm)]
  | cons p rest ih =>
      by_cases hp : p.1 = k
      · simp only [setKey, if_pos hp, lookupD]
        rw [if_neg (fun h => hk h.symm), if_neg (by rw [hp]; exact fun h => hk h.symm)]
      · simp only [setKey, if_neg hp, lookupD]
        by_cases hp' : p.1 = k'
        · rw [if_pos hp', if_pos hp']
        · rw [if_neg hp', if_neg hp']
          exact ih

/-- Folding a sequence of writes whose keys all differ from `k` leaves the
lookup of `k` unchanged. -/
theorem lookupD_foldl_setKey_not_mem (pairs : List (String × ℚ))
    (m0 : List (String × ℚ)) (k : String) (d : ℚ)
    (hk : ∀ q ∈ pairs, q.1 ≠ k) :
    lookupD (pairs.foldl (fun m p => setKey m p.1 p.2) m0) k d = lookupD m0 k d := by
  induction pairs generalizing m0 with
  | nil => rfl
  | cons q rest ih =>
      rw [List.foldl_cons]
      rw [ih _ (fun q' hq' => hk q' (List.mem_cons_of_mem _ hq'))]
      exact lookupD_setKey_ne m0 q.1 k q.2 d
        (fun h => hk q (List.mem_cons_self _ _) h.symm)

/-- Writing distinct names paired with a value list into a dictionary and
reading the names back returns exactly the value list; this is the
write-back loop `for i, name in enumerate(model_predictions.keys()):
self.weights[name] = optimized_weights[i]`. -/
theorem map_lookup_eq_vals (names : List String) (vals : List ℚ)
    (m0 : List (String × ℚ)) (d : ℚ)
    (hnodup : names.Nodup) (hlen : names.length = vals.length) :
    names.map (fun nm =>
      lookupD ((List.zip names vals).foldl (fun m p => setKey m p.1 p.2) m0) nm d)
      = vals := by
  induction names generalizing vals m0 with
  | nil =>
      cases vals with
      | nil => rfl
      | cons y s => simp at hlen
  | cons x t ih =>
      cases vals with
      | nil => simp at hlen
      | cons y s =>
          obtain ⟨hxt, hndt⟩ := List.nodup_cons.mp hnodup
          rw [List.zip_cons_cons, List.map_cons, List.foldl_cons]
          have hknot : ∀ q ∈ List.zip t s, q.1 ≠ x := by
            intro q hq hcontra
            exact hxt (hcontra ▸ (List.of_mem_zip hq).1)
          have hhead : lookupD ((List.zip t s).foldl (fun m p => setKey m p.1 p.2)
              (setKey m0 x y)) x d = y := by
            rw [lookupD_foldl_setKey_not_mem _ _ _ _ hknot]
            exact lookupD_setKey_self m0 x y d
          rw [hhead, ih s (setKey m0 x y) hndt (by simpa using hlen)]

/-- The optimization objective is invariant under the renormalization
`result.x / np.sum(result.x)` because it normalizes its argument itself. -/
theorem mseObjective_norm_inv (preds : List (List ℚ)) (actual : List ℚ)
    (w : List ℚ) (hw : w.sum ≠ 0) :
    mseObjective preds actual (w.map (fun x => x / w.sum)) = mseObjective preds actual w := by
  have hsum : (w.map (fun x => x / w.sum)).sum = 1 := by
    rw [sum_map_div, div_self hw]
  unfold mseObjective
  have h1 : normalizeVec (w.map (fun x => x / w.sum)) = w.map (fun x => x / w.sum) := by
    unfold normalizeVec
    rw [hsum]
    simp
  have h2 : normalizeVec w = w.map (fun x => x / w.sum) := rfl
  rw [h1, h2]

/-- Every member of a list appears as the left component of a zip with a
list at least as long, paired with a member of the right list. -/
theorem mem_zip_of_mem_left {l1 : List String} {l2 : List ℚ}
    (hlen : l1.length ≤ l2.length) {a : String} (ha : a ∈ l1) :
    ∃ b, (a, b) ∈ List.zip l1 l2 ∧ b ∈ l2 := by
  induction l1 generalizing l2 with
  | nil => simp at ha
  | cons x t ih =>
      cases l2 with
      | nil => simp at hlen
      | cons y s =>
          rcases List.mem_cons.mp ha with rfl | hat
          · exact ⟨y, by rw [List.zip_cons_cons]; exact List.mem_cons_self _ _,
              List.mem_cons_self _ _⟩
          · obtain ⟨b, hb1, hb2⟩ := ih (Nat.le_of_succ_le_succ (by simpa using hlen)) hat
            exact ⟨b, by rw [List.zip_cons_cons]; exact List.mem_cons_of_mem _ hb1,
              List.mem_cons_of_mem _ hb2⟩

/- ### C4 (optimize_weights) -/

/-- C4 counterexample: an ensemble with members A (valid prediction) and B
(failed prediction) and weights {A:1, B:1}.  Any minimizer output leads to
the single contributing member A being written back with normalized weight
1 while B's stale weight 1 is left untouched, so the stored weight set sums
to 2, not 1.  The identity minimizer used here satisfies the optimizer
contract (it returns its feasible equal-weight starting point). -/
theorem optimize_weights_stale_weight_counterexample :
    ∃ w', optimize_weights id (fun _ w0 => w0) [("A", some [1]), ("B", none)] [1]
        [("A", 1), ("B", 1)] = .ok w'
      ∧ (w'.map (fun p => p.2)).sum ≠ 1 := by
  refine ⟨[("A", 1), ("B", 1)], ?_, by norm_num⟩
  simp [optimize_weights, successes, setKey]

/-- C4 amended: assuming the minimizer's documented contract — it returns a
vector of the initial dimension, within the bounds `(0, 1)` componentwise,
with positive total, scoring no worse than the equal-weight starting point —
`optimize_weights` succeeds, the weights stored for the contributing
members are non-negative and sum to 1, the validation RMSE objective under
the stored weights is never greater than under the equal starting weights,
and the weights of non-contributing members are left unchanged (so the full
stored map need not sum to 1 when some member failed). -/
theorem optimize_weights_contract
    (sqrtFn : ℚ → ℚ) (argmin : (List ℚ → ℚ) → List ℚ → List ℚ)
    (models : List (String × Option (List ℚ))) (actual : List ℚ)
    (weights : List (String × ℚ)) (result : List ℚ)
    (hs : successes models ≠ [])
    (hnodup : ((successes models).map (fun p => p.1)).Nodup)
    (hres : result = argmin
      (rmseObjective sqrtFn ((successes models).map (fun p => p.2)) actual)
      (List.replicate (successes models).length ((1 : ℚ) / (successes models).length)))
    (hlen : result.length = (successes models).length)
    (hnonneg : ∀ x ∈ result, 0 ≤ x)
    (hpos : 0 < result.sum)
    (hdesc : rmseObjective sqrtFn ((successes models).map (fun p => p.2)) actual result
      ≤ rmseObjective sqrtFn ((successes models).map (fun p => p.2)) actual
        (List.replicate (successes models).length ((1 : ℚ) / (successes models).length))) :
    ∃ w', optimize_weights sqrtFn argmin models actual weights = .ok w'
      ∧ (∀ p ∈ successes models, 0 ≤ lookupD w' p.1 1)
      ∧ ((successes models).map (fun p => lookupD w' p.1 1)).sum = 1
      ∧ rmseObjective sqrtFn ((successes models).map (fun p => p.2)) actual
          ((successes models).map (fun p => lookupD w' p.1 1))
        ≤ rmseObjective sqrtFn ((successes models).map (fun p => p.2)) actual
          (List.replicate (successes models).length ((1 : ℚ) / (successes models).length))
      ∧ ∀ k d, (∀ p ∈ successes models, p.1 ≠ k) →
          lookupD w' k d = lookupD weights k d := by
  have hm : models ≠ [] := by
    intro h
    rw [h] at hs
    exact hs rfl
  have hmf : models.isEmpty = false := by
    simpa [List.isEmpty_iff] using hm
  have hsf : (successes models).isEmpty = false := by
    simpa [List.isEmpty_iff] using hs
  have hw' : optimize_weights sqrtFn argmin models actual weights
      = .ok ((List.zip ((successes models).map (fun p => p.1))
          (result.map (fun x => x / result.sum))).foldl
          (fun m p => setKey m p.1 p.2) weights) := by
    simp only [optimize_weights, hmf, hsf, Bool.false_eq_true, if_false]
    rw [← hres]
  have hmap : ((successes models).map (fun p => p.1)).map (fun nm =>
      lookupD ((List.zip ((successes models).map (fun p => p.1))
        (result.map (fun x => x / result.sum))).foldl
        (fun m p => setKey m p.1 p.2) weights) nm 1)
      = result.map (fun x => x / result.sum) := by
    apply map_lookup_eq_vals _ _ _ _ hnodup
    rw [List.length_map, List.length_map, hlen]
  have hmap' : (successes models).map (fun p =>
      lookupD ((List.zip ((successes models).map (fun p => p.1))
        (result.map (fun x => x / result.sum))).foldl
        (fun m p => setKey m p.1 p.2) weights) p.1 1)
      = result.map (fun x => x / result.sum) := by
    have hmm := hmap
    rw [List.map_map] at hmm
    exact hmm
  refine ⟨_, hw', ?_, ?_, ?_, ?_⟩
  · intro p hp
    have hmem := List.mem_map_of_mem (fun p : String × List ℚ =>
      lookupD ((List.zip ((successes models).map (fun p => p.1))
        (result.map (fun x => x / result.sum))).foldl
        (fun m p => setKey m p.1 p.2) weights) p.1 1) hp
    rw [hmap'] at hmem
    obtain ⟨x, hx, hxeq⟩ := List.mem_map.mp hmem
    have hnn := div_nonneg (hnonneg x hx) (le_of_lt hpos)
    exact le_of_le_of_eq hnn hxeq
  · rw [hmap', sum_map_div]
    exact div_self (ne_of_gt hpos)
  · rw [hmap']
    unfold rmseObjective
    rw [mseObjective_norm_inv _ _ _ (ne_of_gt hpos)]
    exact hdesc
  · intro k d hk
    apply lookupD_foldl_setKey_not_mem
    intro q hq
    have hq1 := (List.of_mem_zip hq).1
    obtain ⟨p, hp, hpeq⟩ := List.mem_map.mp hq1
    rw [← hpeq]
    exact hk p hp

/-- C4 amended contract, witnessed on a one-member ensemble with the
identity minimizer (which satisfies the optimizer contract at this input):
the stored contributing weights sum to 1. -/
theorem optimize_weights_contract_witness :
    ∃ w', optimize_weights id (fun _ w0 => w0) [("A", some [1])] [1] [("A", 1)] = .ok w'
      ∧ ((successes [("A", some [1])]).map (fun p => lookupD w' p.1 1)).sum = 1 := by
  obtain ⟨w', h1, _, h3, _, _⟩ := optimize_weights_contract id (fun _ w0 => w0)
    [("A", some [1])] [1] [("A", 1)]
    (List.replicate (successes [("A", some [1])]).length
      ((1 : ℚ) / (successes [("A", some [1])]).length))
    (by simp [successes]) (by simp [successes]) rfl
    (by simp) (by intro x hx; simp [successes] at hx; simp [hx])
    (by simp [successes]) (le_refl _)
  exact ⟨w', h1, h3⟩

/- ### C7 (retraining isolates per-model failures) -/

/-- Every reachable outcome of one model's retraining block is a failure:
either the training raised and its message is recorded, or the training
succeeded and the nonexistent `save_model` attribute raised. -/
theorem runModel_always_failed (sqrtFn : ℚ → ℚ) (closeTail : List ℚ)
    (r : ModelRun) :
    runModel sqrtFn closeTail r
      = RetrainStatus.failed saveModelAttributeError.msg
    ∨ ∃ e, r.trainResult = Except.error e
        ∧ runModel sqrtFn closeTail r = RetrainStatus.failed e.msg := by
  cases htr : r.trainResult with
  | error e =>
      refine Or.inr ⟨e, rfl, ?_⟩
      unfold runModel
      rw [htr]
  | ok u =>
      cases u
      refine Or.inl ?_
      unfold runModel
      rw [htr]

/-- C7: the failure-isolation half of the claim holds — the report has one
entry per model kind (the batch is never aborted) and a model whose
training raises is recorded per-item with its error message — but the
success half is unrealizable: `ForecastService` has no `save_model`
method, so after every successful training the save call raises
`AttributeError`, the entry is recorded as failed with that message, and
no report entry can ever carry a success status, let alone list both
succeeded and failed model names. -/
theorem retrain_report_all_failed (sqrtFn : ℚ → ℚ) (closeTail : List ℚ)
    (runs : List ModelRun) :
    (retrain_models sqrtFn closeTail runs).length = runs.length
    ∧ (∀ r ∈ runs, ∀ e, r.trainResult = Except.error e →
        (r.name, RetrainStatus.failed e.msg) ∈ retrain_models sqrtFn closeTail runs)
    ∧ (∀ r ∈ runs, r.trainResult = Except.ok () →
        (r.name, RetrainStatus.failed saveModelAttributeError.msg)
          ∈ retrain_models sqrtFn closeTail runs)
    ∧ ∀ p ∈ retrain_models sqrtFn closeTail runs, ∀ m,
        p.2 ≠ RetrainStatus.success m := by
  refine ⟨List.length_map _ _, ?_, ?_, ?_⟩
  · intro r hr e he
    have hrun : runModel sqrtFn closeTail r = RetrainStatus.failed e.msg := by
      unfold runModel
      rw [he]
    have hmem := List.mem_map_of_mem
      (fun r => (r.name, runModel sqrtFn closeTail r)) hr
    simpa [retrain_models, hrun] using hmem
  · intro r hr ht
    have hrun : runModel sqrtFn closeTail r
        = RetrainStatus.failed saveModelAttributeError.msg := by
      unfold runModel
      rw [ht]
    have hmem := List.mem_map_of_mem
      (fun r => (r.name, runModel sqrtFn closeTail r)) hr
    simpa [retrain_models, hrun] using hmem
  · intro p hp m
    simp only [retrain_models, List.mem_map] at hp
    obtain ⟨r, _, rfl⟩ := hp
    rcases runModel_always_failed sqrtFn closeTail r with h | ⟨e, _, h⟩
    · simp [h]
    · simp [h]

/-- C7 evaluated at the failing input: in a batch where the baseline model
trains cleanly and the autoregressive model's training raises, both end up
reported as failed — the clean trainee through the `AttributeError` of the
missing `save_model` method. -/
theorem retrain_report_all_failed_witness :
    ("moving_average", RetrainStatus.failed saveModelAttributeError.msg)
      ∈ retrain_models id [1, 2]
        [⟨"moving_average", .ok (), .ok [1, 2], .ok ()⟩,
         ⟨"arima", .error ⟨"ValueError", "boom"⟩, .ok [], .ok ()⟩]
    ∧ ("arima", RetrainStatus.failed "boom")
      ∈ retrain_models id [1, 2]
        [⟨"moving_average", .ok (), .ok [1, 2], .ok ()⟩,
         ⟨"arima", .error ⟨"ValueError", "boom"⟩, .ok [], .ok ()⟩] := by
  have h := retrain_report_all_failed id [1, 2]
    [⟨"moving_average", .ok (), .ok [1, 2], .ok ()⟩,
     ⟨"arima", .error ⟨"ValueError", "boom"⟩, .ok [], .ok ()⟩]
  exact ⟨h.2.2.1 ⟨"moving_average", .ok (), .ok [1, 2], .ok ()⟩ (by simp) rfl,
    h.2.1 ⟨"arima", .error ⟨"ValueError", "boom"⟩, .ok [], .ok ()⟩ (by simp)
      ⟨"ValueError", "boom"⟩ rfl⟩

/- ### C8 (model rankings: latest record per model, best/worst by score) -/

/-- Records kept by the grouping step carry names not yet seen. -/
theorem groupFirstAux_name_not_seen (l : List PerfRecord) (seen : List String)
    (r : PerfRecord) (hr : r ∈ groupFirstAux seen l) : r.model_name ∉ seen := by
  induction l generalizing seen with
  | nil => simp [groupFirstAux] at hr
  | cons x t ih =>
      by_cases hx : x.model_name ∈ seen
      · rw [groupFirstAux, if_pos hx] at hr
        exact ih seen hr
      · rw [groupFirstAux, if_neg hx] at hr
        rcases List.mem_cons.mp hr with rfl | hrt
        · exact hx
        · have := ih (x.model_name :: seen) hrt
          exact fun hmem => this (List.mem_cons_of_mem _ hmem)

/-- The grouping step only selects records of the input frame. -/
theorem groupFirstAux_subset (l : List PerfRecord) (seen : List String)
    (r : PerfRecord) (hr : r ∈ groupFirstAux seen l) : r ∈ l := by
  induction l generalizing seen with
  | nil => simp [groupFirstAux] at hr
  | cons x t ih =>
      by_cases hx : x.model_name ∈ seen
      · rw [groupFirstAux, if_pos hx] at hr
        exact List.mem_cons_of_mem _ (ih seen hr)
      · rw [groupFirstAux, if_neg hx] at hr
        rcases List.mem_cons.mp hr with rfl | hrt
        · exact List.mem_cons_self _ _
        · exact List.mem_cons_of_mem _ (ih _ hrt)

/-- On a timestamp-descending frame, the record selected for a model name
dominates every record of that name: `first()` on the descending frame is
the most recent record. -/
theorem groupFirstAux_latest (l : List PerfRecord) (seen : List String)
    (hdesc : l.Pairwise (fun a b => b.timestamp ≤ a.timestamp))
    (r : PerfRecord) (hr : r ∈ groupFirstAux seen l)
    (r' : PerfRecord) (hr' : r' ∈ l)
    (hname : r'.model_name = r.model_name) : r'.timestamp ≤ r.timestamp := by
  induction l generalizing seen with
  | nil => simp [groupFirstAux] at hr
  | cons x t ih =>
      obtain ⟨hx_t, hdt⟩ := List.pairwise_cons.mp hdesc
      by_cases hx : x.model_name ∈ seen
      · rw [groupFirstAux, if_pos hx] at hr
        rcases List.mem_cons.mp hr' with rfl | hr't
        · exact absurd (hname ▸ hx) (groupFirstAux_name_not_seen t seen r hr)
        · exact ih seen hdt hr hr't
      · rw [groupFirstAux, if_neg hx] at hr
        rcases List.mem_cons.mp hr with rfl | hrt
        · rcases List.mem_cons.mp hr' with rfl | hr't
          · exact le_refl _
          · exact hx_t r' hr't
        · have hnotin := groupFirstAux_name_not_seen t (x.model_name :: seen) r hrt
          rcases List.mem_cons.mp hr' with rfl | hr't
          · exact absurd (hname ▸ List.mem_cons_self _ _) (hname ▸ hnotin)
          · exact ih _ hdt hrt hr't

/-- Head of a list that is pairwise ordered by a reflexive relation is
related to every element. -/
theorem head_rel_of_pairwise {α : Type} (rel : α → α → Prop)
    (hrefl : ∀ a, rel a a) {l : List α} (hp : l.Pairwise rel)
    {h : α} (hh : l.head? = some h) {x : α} (hx : x ∈ l) : rel h x := by
  cases l with
  | nil => simp at hh
  | cons a t =>
      have ha : a = h := by simpa using hh
      subst ha
      rcases List.mem_cons.mp hx with rfl | hxt
      · exact hrefl x
      · exact (List.pairwise_cons.mp hp).1 x hxt

/-- Every element of a list pairwise ordered by a reflexive relation is
related to its last element. -/
theorem rel_getLast_of_pairwise {α : Type} (rel : α → α → Prop)
    (hrefl : ∀ a, rel a a) {l : List α} (hp : l.Pairwise rel)
    {g : α} (hg : l.getLast? = some g) {x : α} (hx : x ∈ l) : rel x g := by
  induction l with
  | nil => simp at hg
  | cons a t ih =>
      cases t with
      | nil =>
          have hag : a = g := by simpa using hg
          have hxa : x = a := by simpa using hx
          subst hag
          subst hxa
          exact hrefl x
      | cons b t2 =>
          have hg' : (b :: t2).getLast? = some g := by
            rw [← List.getLast?_cons_cons]
            exact hg
          obtain ⟨ha, hp'⟩ := List.pairwise_cons.mp hp
          rcases List.mem_cons.mp hx with rfl | hxt
          · exact ha g (List.mem_of_mem_getLast? (by simpa using hg'))
          · exact ih hp' hg' hxt

/-- C8: on the timestamp-descending performance frame the ranking
computation selects, per model name, a record at least as recent as every
record of that model in the requested symbol scope; and for any ascending
sort of the selected records by the requested metric, the reported best
model carries a minimal score and the reported worst model a maximal score
among the selected records. -/
theorem rankings_latest_best_worst
    (sortFn : List PerfRecord → List PerfRecord)
    (records : List PerfRecord) (scope : Option String) (metric : String)
    (hdb : (scopeFilter records scope).Pairwise (fun a b => b.timestamp ≤ a.timestamp))
    (hperm : ∀ r, r ∈ sortFn (groupFirst (scopeFilter records scope)) ↔
      r ∈ groupFirst (scopeFilter records scope))
    (hsorted : (sortFn (groupFirst (scopeFilter records scope))).Pairwise
      (fun a b => findMetric a.metrics metric ≤ findMetric b.metrics metric)) :
    (∀ r ∈ groupFirst (scopeFilter records scope),
      r ∈ scopeFilter records scope ∧
      ∀ r' ∈ scopeFilter records scope, r'.model_name = r.model_name →
        r'.timestamp ≤ r.timestamp)
    ∧ ∀ best worst scores,
        calculate_model_rankings sortFn records scope metric = some (best, worst, scores) →
        (∃ rb ∈ groupFirst (scopeFilter records scope), best = rb.model_name ∧
          ∀ r ∈ groupFirst (scopeFilter records scope),
            findMetric rb.metrics metric ≤ findMetric r.metrics metric)
        ∧ (∃ rw ∈ groupFirst (scopeFilter records scope), worst = rw.model_name ∧
          ∀ r ∈ groupFirst (scopeFilter records scope),
            findMetric r.metrics metric ≤ findMetric rw.metrics metric) := by
  constructor
  · intro r hr
    exact ⟨groupFirstAux_subset _ _ _ hr,
      fun r' hr' hname => groupFirstAux_latest _ _ hdb r hr r' hr' hname⟩
  · intro best worst scores hsome
    simp only [calculate_model_rankings] at hsome
    cases hh : (sortFn (groupFirst (scopeFilter records scope))).head? with
    | none => rw [hh] at hsome; simp at hsome
    | some b =>
        cases hg : (sortFn (groupFirst (scopeFilter records scope))).getLast? with
        | none => rw [hh, hg] at hsome; simp at hsome
        | some w =>
            rw [hh, hg] at hsome
            simp only [Option.some.injEq, Prod.mk.injEq] at hsome
            obtain ⟨hbest, hworst, _⟩ := hsome
            constructor
            · refine ⟨b, ?_, hbest.symm, ?_⟩
              · exact (hperm b).mp (List.mem_of_mem_head? (by simpa using hh))
              · intro r hrmem
                exact head_rel_of_pairwise
                  (fun a b => findMetric a.metrics metric ≤ findMetric b.metrics metric)
                  (fun a => le_refl _) hsorted hh ((hperm r).mpr hrmem)
            · refine ⟨w, ?_, hworst.symm, ?_⟩
              · exact (hperm w).mp (List.mem_of_mem_getLast? (by simpa using hg))
              · intro r hrmem
                exact rel_getLast_of_pairwise
                  (fun a b => findMetric a.metrics metric ≤ findMetric b.metrics metric)
                  (fun a => le_refl _) hsorted hg ((hperm r).mpr hrmem)

/-- C8 witnessed on the spec's scenario: latest rmse scores {m1:1.0, m2:2.0}
rank m1 best and m2 worst, and the reported best score is minimal among the
selected records. -/
theorem rankings_scenario_witness :
    calculate_model_rankings id
      [⟨"S", "m1", 0, [("rmse", 1)]⟩, ⟨"S", "m2", 0, [("rmse", 2)]⟩] none "rmse"
      = some ("m1", "m2", [("m1", ((1 : ℚ) : WithTop ℚ)), ("m2", ((2 : ℚ) : WithTop ℚ))])
    ∧ ∃ rb ∈ groupFirst (scopeFilter
        [⟨"S", "m1", 0, [("rmse", 1)]⟩, ⟨"S", "m2", 0, [("rmse", 2)]⟩] none),
        "m1" = rb.model_name ∧
        ∀ r ∈ groupFirst (scopeFilter
          [⟨"S", "m1", 0, [("rmse", 1)]⟩, ⟨"S", "m2", 0, [("rmse", 2)]⟩] none),
          findMetric rb.metrics "rmse" ≤ findMetric r.metrics "rmse" := by
  have heq : calculate_model_rankings id
      [⟨"S", "m1", 0, [("rmse", 1)]⟩, ⟨"S", "m2", 0, [("rmse", 2)]⟩] none "rmse"
      = some ("m1", "m2", [("m1", ((1 : ℚ) : WithTop ℚ)), ("m2", ((2 : ℚ) : WithTop ℚ))]) := by
    simp [calculate_model_rankings, groupFirst, groupFirstAux, scopeFilter, findMetric]
  refine ⟨heq, ?_⟩
  have h := (rankings_latest_best_worst id
    [⟨"S", "m1", 0, [("rmse", 1)]⟩, ⟨"S", "m2", 0, [("rmse", 2)]⟩] none "rmse"
    (by simp [scopeFilter])
    (fun r => Iff.rfl)
    (by simp [scopeFilter, groupFirst, groupFirstAux, findMetric])).2
    "m1" "m2" [("m1", ((1 : ℚ) : WithTop ℚ)), ("m2", ((2 : ℚ) : WithTop ℚ))] heq
  exact h.1

/- ### C9 (manual trigger invokes exactly the matching job bodies) -/

/-- C9: for every category string the manual trigger synchronously invokes
exactly the job bodies matching that category, and in particular category
"data" invokes only the daily data-refresh body. -/
theorem trigger_manual_matches_category (t : String) :
    trigger_manual_update t = specMatchingJobs t
    ∧ trigger_manual_update "data" = [JobBody.dataRefresh] := by
  constructor
  · simp only [trigger_manual_update, specMatchingJobs, categoryOf,
      List.filter_cons, List.filter_nil, decide_eq_true_eq]
    by_cases h1 : t = "all" ∨ t = "data" <;>
      by_cases h2 : t = "all" ∨ t = "forecast" <;>
        by_cases h3 : t = "all" ∨ t = "sentiment" <;>
          by_cases h4 : t = "all" ∨ t = "models" <;>
            simp [h1, h2, h3, h4]
  · simp [trigger_manual_update]

/- ### C10 (empty ensemble fails explicitly) -/

/-- C10: an ensemble with no member models rejects both `predict` (for any
horizon) and `optimize_weights` (for any validation data) with the explicit
"No models added to ensemble" error, never returning a prediction or a
weight set. -/
theorem empty_ensemble_errors (sqrtFn : ℚ → ℚ)
    (argmin : (List ℚ → ℚ) → List ℚ → List ℚ)
    (weights : List (String × ℚ)) (actual : List ℚ) (steps : Nat) :
    ensemblePredict [] weights steps =
      .error ⟨"ValueError", "No models added to ensemble"⟩
    ∧ optimize_weights sqrtFn argmin [] actual weights =
      .error ⟨"ValueError", "No models added to ensemble"⟩ :=
  ⟨rfl, rfl⟩

end FinForecast
